import Mathlib

/-!
Shallow embedding of the bar-catalog backend (src/server.py) and proofs about
its nearest-bars and all-bars endpoints.

Modelling conventions:
* Python floats are modelled by `PyFloat`: an exact rational for finite values
  plus the special values nan, +inf, -inf.  The claims under study concern
  counts, ordering, validation and error propagation, none of which depend on
  binary rounding error, so rationals are an adequate idealisation.
* The pandas dataframe `bars_df` is modelled by `DataFrame`: the loaded rows,
  a flag recording whether the optional "Happy Hour" column exists (pandas
  `row.get` falls back to the default only when the column label is absent;
  a blank cell in a present column is the float nan), and the state of the
  "distance" column that `get_closest_bars` writes into the shared frame.
* `sort_values("distance")` sorts ascending with nan placed last
  (na_position is "last" by default).  The embedding realises it with a
  concrete comparison-sort; the theorems below quantify over a sorted
  permutation and so do not depend on which order the sort leaves
  equal-distance rows in.  (The source uses the pandas default sort kind,
  quicksort, which gives no stability guarantee; tie order is therefore left
  unspecified by the source and no theorem here fixes it.)
* Python `round` is banker\x27s rounding (round half to even) and raises on
  nan and infinities; `float(x)` raises TypeError on None and ValueError on
  unparseable strings but accepts "nan"/"inf" strings and non-finite numbers.
-/

/-- Model of a Python float: exact rational for finite values, plus the
IEEE special values produced and consumed by the code. -/
inductive PyFloat where
  | fin (q : ℚ)
  | nan
  | inf
  | ninf
deriving DecidableEq, Repr

/-- Sort bucket used by the distance comparison: -inf before finite values
before +inf, with nan last (pandas default na_position is "last"). -/
def PyFloat.rank : PyFloat → Nat
  | .ninf => 0
  | .fin _ => 1
  | .inf => 2
  | .nan => 3

/-- Comparison used by the model of `sort_values("distance")`: ordinary
numeric order on finite values, -inf smallest, +inf above all finite values,
and nan ordered after everything (pandas puts missing values last). -/
def pyLe : PyFloat → PyFloat → Bool
  | .fin x, .fin y => decide (x ≤ y)
  | a, b => decide (a.rank ≤ b.rank)

/-- Model of a JSON / cell value as it reaches the endpoint code: a string,
a number, or null.  A blank spreadsheet cell in a present column is read by
pandas as the float nan, i.e. `JVal.num .nan`. -/
inductive JVal where
  | str (s : String)
  | num (x : PyFloat)
  | null
deriving DecidableEq, Repr

/-- Digits of a decimal literal folded into a natural number. -/
def natOfDigits (l : List Char) : Nat :=
  l.foldl (fun n c => 10 * n + (c.toNat - 48)) 0

/-- Unsigned part of the Python float grammar: decimal digits with an
optional fractional part and an optional exponent.  The rational value is
assembled with integer arithmetic and a single `Rat.divInt`.  (Underscore
digit separators, accepted by Python, are not modelled; no claim depends
on them.) -/
def parseUnsigned (cs : List Char) : Option ℚ :=
  let mant := cs.takeWhile (fun c => !(c == 'e' || c == 'E'))
  let rest := cs.dropWhile (fun c => !(c == 'e' || c == 'E'))
  let ip := mant.takeWhile (fun c => !(c == '.'))
  let fp := mant.dropWhile (fun c => !(c == '.'))
  let frac := match fp with
    | [] => some []
    | _ :: fr => if fr.all (·.isDigit) then some fr else none
  match frac with
  | none => none
  | some fr =>
    if ip.all (·.isDigit) ∧ (ip ++ fr) ≠ [] then
      let m := natOfDigits (ip ++ fr)
      match rest with
      | [] => some (Rat.divInt m (10 ^ fr.length))
      | _ :: ex =>
        let (eneg, ed) := match ex with
          | '+' :: d => (false, d)
          | '-' :: d => (true, d)
          | d => (false, d)
        if ed ≠ [] ∧ ed.all (·.isDigit) then
          if eneg then some (Rat.divInt m (10 ^ (fr.length + natOfDigits ed)))
          else some (Rat.divInt (m * 10 ^ natOfDigits ed) (10 ^ fr.length))
        else none
    else none

/-- Model of Python `float(s)` on a string: strips whitespace, takes an
optional sign, accepts the keywords inf/infinity/nan case-insensitively, and
otherwise parses a decimal literal; returns none where Python raises
ValueError. -/
def parsePyFloat (s : String) : Option PyFloat :=
  let t := (((s.toList.dropWhile (·.isWhitespace)).reverse.dropWhile (·.isWhitespace)).reverse)
  let (neg, cs) := match t with
    | '+' :: r => (false, r)
    | '-' :: r => (true, r)
    | r => (false, r)
  let low := cs.map Char.toLower
  if low = ['i', 'n', 'f'] ∨ low = ['i', 'n', 'f', 'i', 'n', 'i', 't', 'y'] then
    some (if neg then .ninf else .inf)
  else if low = ['n', 'a', 'n'] then
    some .nan
  else
    match parseUnsigned cs with
    | some q => some (.fin (if neg then -q else q))
    | none => none

/-- Model of the `float(data.get("lat"))` step: `data.get` yields None when
the key is absent (and JSON null also arrives as None), on which `float`
raises TypeError; a string goes through the float grammar; a JSON number is
already a float.  none models the raised TypeError/ValueError that the
endpoint catches. -/
def pyFloat : Option JVal → Option PyFloat
  | none => none
  | some .null => none
  | some (.num x) => some x
  | some (.str s) => parsePyFloat s

/-- Model of Python `round(q)` on a finite value: round half to even.
Writing `f` for the floor of `q`, the integer `t = 2 * (q.num - f * q.den)`
equals `2 * (q - f) * q.den`, so comparing `t` with `q.den` compares the
fractional part of `q` with one half without any rational arithmetic. -/
def pyRoundQ (q : ℚ) : ℤ :=
  if 2 * (q.num - ⌊q⌋ * q.den) < (q.den : ℤ) then ⌊q⌋
  else if (q.den : ℤ) < 2 * (q.num - ⌊q⌋ * q.den) then ⌊q⌋ + 1
  else if ⌊q⌋ % 2 = 0 then ⌊q⌋ else ⌊q⌋ + 1

/-- Model of Python `round` on a float: raises (none) on nan
(ValueError) and on the infinities (OverflowError). -/
def pyRound : PyFloat → Option ℤ
  | .fin q => some (pyRoundQ q)
  | _ => none

/-- Bar record as one row of the loaded dataframe. -/
structure BarRow where
  nom : String
  adresse : String
  prix : JVal
  latitude : PyFloat
  longitude : PyFloat
  happyHour : JVal
deriving DecidableEq, Repr

/-- Dataframe state of the process: the loaded rows, whether the optional
"Happy Hour" column exists, and the "distance" column that
`get_closest_bars` assigns into the shared frame. -/
structure DataFrame where
  hasHappyHour : Bool
  rows : List BarRow
  distCol : Option (List PyFloat)
deriving DecidableEq, Repr

/-- Request body of POST /closest_bars: the two looked-up fields; none
models an absent key. -/
structure Body where
  lat : Option JVal
  lon : Option JVal
deriving DecidableEq, Repr

/-- Entry of the /all_bars response payload. -/
structure BarInfo where
  nom : String
  adresse : String
  prix : JVal
  latitude : PyFloat
  longitude : PyFloat
  happy_hour : JVal
deriving DecidableEq, Repr

/-- Entry of the /closest_bars response payload, with the rounded
display distance. -/
structure RankedBar where
  nom : String
  adresse : String
  prix : JVal
  happy_hour : JVal
  latitude : PyFloat
  longitude : PyFloat
  distance_m : ℤ
deriving DecidableEq, Repr

/-- HTTP outcome of an endpoint: 200 with a payload, 400 with the message
the code sends, or 500 from the catch-all exception handler. -/
inductive HttpResp (α : Type) where
  | ok (payload : α)
  | clientError (msg : String)
  | serverError
deriving DecidableEq, Repr

/-- Model of `row.get("Happy Hour", "Non renseigné")`: the default applies
only when the column label is absent from the frame; a present column
yields the stored cell value even when that value is nan (blank cell). -/
def rowGetHappyHour (st : DataFrame) (r : BarRow) : JVal :=
  if st.hasHappyHour then r.happyHour else .str "Non renseigné"

/-- Formats one row for the /all_bars payload. -/
def barInfoOf (st : DataFrame) (r : BarRow) : BarInfo :=
  ⟨r.nom, r.adresse, r.prix, r.latitude, r.longitude, rowGetHappyHour st r⟩

/-- Formats one row plus its rounded distance for the /closest_bars
payload. -/
def rankedOf (st : DataFrame) (r : BarRow) (m : ℤ) : RankedBar :=
  ⟨r.nom, r.adresse, r.prix, rowGetHappyHour st r, r.latitude, r.longitude, m⟩

/-- Results loop of `get_closest_bars`: rounds each distance for display;
a nan or infinite distance makes `round` raise, which the surrounding
try/except turns into a 500, modelled by none. -/
def buildResults (st : DataFrame) : List (BarRow × PyFloat) → Option (List RankedBar)
  | [] => some []
  | (r, d) :: rest =>
    match pyRound d, buildResults st rest with
    | some m, some bars => some (rankedOf st r m :: bars)
    | _, _ => none

/-- Ordering on scored rows used by the model of `sort_values`. -/
def leDist (a b : BarRow × PyFloat) : Prop :=
  pyLe a.2 b.2 = true

instance : DecidableRel leDist := fun a b => decEq (pyLe a.2 b.2) true

/-- Model of POST /closest_bars (`get_closest_bars`): validates the two
coordinates via `float`, computes a distance for every row with the
supplied geodesic function, writes the distance column into the shared
frame, sorts ascending by distance, keeps the first three, and rounds for
display.  Returns the HTTP outcome together with the dataframe state after
the call. -/
def closestBars (dist : PyFloat × PyFloat → PyFloat × PyFloat → PyFloat)
    (body : Body) (st : DataFrame) : HttpResp (List RankedBar) × DataFrame :=
  match pyFloat body.lat, pyFloat body.lon with
  | some lat, some lon =>
    let ds := st.rows.map fun r => dist (lat, lon) (r.latitude, r.longitude)
    let st2 : DataFrame := { st with distCol := some ds }
    let sorted := List.insertionSort leDist (st.rows.zip ds)
    match buildResults st2 (sorted.take 3) with
    | some bars => (.ok bars, st2)
    | none => (.serverError, st2)
  | _, _ => (.clientError "Coordonnées invalides", st)

/-- Model of GET /all_bars (`get_all_bars`): formats every loaded row in
load order; the loop is total, so the endpoint always answers 200. -/
def allBars (st : DataFrame) : HttpResp (List BarInfo) :=
  .ok (st.rows.map (barInfoOf st))

/-- Model of the startup load (lines 15-22): a readable source yields its
rows and its column layout; an unreadable source is caught and replaced by
the empty fallback frame whose fixed schema includes the "Happy Hour"
column.  The function is total: load never raises to the caller. -/
def loadBars (source : Except String (Bool × List BarRow)) : DataFrame :=
  match source with
  | .ok (hasHH, rows) => ⟨hasHH, rows, none⟩
  | .error _ => ⟨true, [], none⟩

/-- Boolean test for a finite (non-nan, non-infinite) float. -/
def isFinB : PyFloat → Bool
  | .fin _ => true
  | _ => false

/-- Rational value of a finite float, defaulting to 0 on the special
values; used only to state results about lists already known finite. -/
def forceQ : PyFloat → ℚ
  | .fin q => q
  | _ => 0

theorem pyLe_fin_iff {x y : ℚ} : pyLe (.fin x) (.fin y) = true ↔ x ≤ y := by
  simp [pyLe]

theorem pyLe_nan_iff {b : PyFloat} : pyLe .nan b = true ↔ b = .nan := by
  cases b <;> simp [pyLe, PyFloat.rank]

theorem pyLe_total (a b : PyFloat) : pyLe a b = true ∨ pyLe b a = true := by
  cases a <;> cases b <;> simp [pyLe, PyFloat.rank]
  exact le_total _ _

theorem pyLe_trans {a b c : PyFloat} (h1 : pyLe a b = true) (h2 : pyLe b c = true) :
    pyLe a c = true := by
  cases a <;> cases b <;> cases c <;> simp_all [pyLe, PyFloat.rank]
  exact le_trans h1 h2

instance : IsTotal (BarRow × PyFloat) leDist :=
  ⟨fun a b => pyLe_total a.2 b.2⟩

instance : IsTrans (BarRow × PyFloat) leDist :=
  ⟨fun _ _ _ h1 h2 => pyLe_trans h1 h2⟩

theorem mem_zip_map {α β : Type} (f : α → β) :
    ∀ (l : List α) (p : α × β), p ∈ l.zip (l.map f) → p.2 = f p.1 ∧ p.1 ∈ l := by
  intro l
  induction l with
  | nil => intro p hp; cases hp
  | cons a t ih =>
    intro p hp
    cases hp with
    | head => exact ⟨rfl, List.mem_cons_self a t⟩
    | tail _ h =>
      obtain ⟨h1, h2⟩ := ih _ h
      exact ⟨h1, List.mem_cons_of_mem a h2⟩

theorem map_snd_zip_map {α β : Type} (f : α → β) :
    ∀ l : List α, (l.zip (l.map f)).map Prod.snd = l.map f := by
  intro l
  induction l with
  | nil => rfl
  | cons a t ih => simpa using ih

theorem length_zip_map {α β : Type} (f : α → β) (l : List α) :
    (l.zip (l.map f)).length = l.length := by
  simp

theorem buildResults_eq (st : DataFrame) :
    ∀ l : List (BarRow × PyFloat), (∀ p ∈ l, isFinB p.2 = true) →
      buildResults st l = some (l.map fun p => rankedOf st p.1 (pyRoundQ (forceQ p.2))) := by
  intro l
  induction l with
  | nil => intro _; rfl
  | cons p t ih =>
    intro h
    obtain ⟨r, d⟩ := p
    have hd : isFinB d = true := h _ (List.mem_cons_self _ _)
    cases d with
    | fin q =>
      have ht := ih fun p hp => h p (List.mem_cons_of_mem _ hp)
      simp [buildResults, pyRound, forceQ, ht]
    | nan => simp [isFinB] at hd
    | inf => simp [isFinB] at hd
    | ninf => simp [isFinB] at hd

theorem ratNumCast (q : ℚ) : (q.num : ℚ) = q * (q.den : ℚ) := by
  have hden : (q.den : ℚ) ≠ 0 := by
    exact_mod_cast q.den_nz
  calc (q.num : ℚ) = (q.num : ℚ) / (q.den : ℚ) * (q.den : ℚ) := by field_simp
    _ = q * (q.den : ℚ) := by rw [Rat.num_div_den]

theorem t_spec (q : ℚ) :
    ((2 * (q.num - ⌊q⌋ * q.den) : ℤ) : ℚ) = 2 * (q - ⌊q⌋) * (q.den : ℚ) := by
  push_cast
  rw [ratNumCast]
  ring

theorem den_pos_q (q : ℚ) : (0 : ℚ) < (q.den : ℚ) := by
  exact_mod_cast q.den_pos

theorem t_lt_den_iff (q : ℚ) :
    (2 * (q.num - ⌊q⌋ * q.den) < (q.den : ℤ)) ↔ q - ⌊q⌋ < 1 / 2 := by
  have hd := den_pos_q q
  rw [← @Int.cast_lt ℚ, t_spec, show (((q.den : ℤ) : ℚ)) = (q.den : ℚ) by push_cast; ring]
  constructor
  · intro h
    by_contra hc
    push_neg at hc
    have h2 : (1 : ℚ) * (q.den : ℚ) ≤ 2 * (q - ⌊q⌋) * (q.den : ℚ) :=
      mul_le_mul_of_nonneg_right (by linarith) hd.le
    linarith
  · intro h
    have h2 : 2 * (q - ⌊q⌋) * (q.den : ℚ) < 1 * (q.den : ℚ) :=
      mul_lt_mul_of_pos_right (by linarith) hd
    linarith

theorem den_lt_t_iff (q : ℚ) :
    ((q.den : ℤ) < 2 * (q.num - ⌊q⌋ * q.den)) ↔ 1 / 2 < q - ⌊q⌋ := by
  have hd := den_pos_q q
  rw [← @Int.cast_lt ℚ, t_spec, show (((q.den : ℤ) : ℚ)) = (q.den : ℚ) by push_cast; ring]
  constructor
  · intro h
    by_contra hc
    push_neg at hc
    have h2 : 2 * (q - ⌊q⌋) * (q.den : ℚ) ≤ 1 * (q.den : ℚ) :=
      mul_le_mul_of_nonneg_right (by linarith) hd.le
    linarith
  · intro h
    have h2 : (1 : ℚ) * (q.den : ℚ) < 2 * (q - ⌊q⌋) * (q.den : ℚ) :=
      mul_lt_mul_of_pos_right (by linarith) hd
    linarith

theorem pyRoundQ_floor_le (q : ℚ) : ⌊q⌋ ≤ pyRoundQ q := by
  unfold pyRoundQ
  split_ifs <;> omega

theorem pyRoundQ_le_floor_add_one (q : ℚ) : pyRoundQ q ≤ ⌊q⌋ + 1 := by
  unfold pyRoundQ
  split_ifs <;> omega

theorem pyRoundQ_of_lt_half {q : ℚ} (h : q - ⌊q⌋ < 1 / 2) : pyRoundQ q = ⌊q⌋ := by
  unfold pyRoundQ
  rw [if_pos ((t_lt_den_iff q).2 h)]

theorem pyRoundQ_of_half_lt {q : ℚ} (h : 1 / 2 < q - ⌊q⌋) : pyRoundQ q = ⌊q⌋ + 1 := by
  have h1 : ¬(2 * (q.num - ⌊q⌋ * q.den) < (q.den : ℤ)) := by
    rw [t_lt_den_iff]
    exact not_lt.2 h.le
  unfold pyRoundQ
  rw [if_neg h1, if_pos ((den_lt_t_iff q).2 h)]

theorem pyRoundQ_of_eq_half {q : ℚ} (h : q - ⌊q⌋ = 1 / 2) :
    pyRoundQ q = if ⌊q⌋ % 2 = 0 then ⌊q⌋ else ⌊q⌋ + 1 := by
  have h1 : ¬(2 * (q.num - ⌊q⌋ * q.den) < (q.den : ℤ)) := by
    rw [t_lt_den_iff, h]
    exact lt_irrefl _
  have h2 : ¬((q.den : ℤ) < 2 * (q.num - ⌊q⌋ * q.den)) := by
    rw [den_lt_t_iff, h]
    exact lt_irrefl _
  unfold pyRoundQ
  rw [if_neg h1, if_neg h2]

/-- Python round is monotone on finite values: because ranking happens on
the full-precision distances and rounding only afterwards, the displayed
integer distances inherit the sort order. -/
theorem pyRoundQ_mono {x y : ℚ} (h : x ≤ y) : pyRoundQ x ≤ pyRoundQ y := by
  have hf : ⌊x⌋ ≤ ⌊y⌋ := Int.floor_le_floor h
  rcases lt_or_eq_of_le hf with hlt | heq
  · have b1 := pyRoundQ_le_floor_add_one x
    have b2 := pyRoundQ_floor_le y
    omega
  · have hxy : x - ⌊x⌋ ≤ y - ⌊y⌋ := by
      rw [← heq]
      exact sub_le_sub_right h _
    rcases lt_trichotomy (x - ⌊x⌋) (1 / 2 : ℚ) with h1 | h1 | h1
    · rw [pyRoundQ_of_lt_half h1, heq]
      exact pyRoundQ_floor_le y
    · rcases lt_or_eq_of_le (h1 ▸ hxy) with h2 | h2
      · rw [pyRoundQ_of_half_lt h2]
        have := pyRoundQ_le_floor_add_one x
        omega
      · rw [pyRoundQ_of_eq_half h1, pyRoundQ_of_eq_half h2.symm, heq]
    · have h2 : 1 / 2 < y - ⌊y⌋ := lt_of_lt_of_le h1 hxy
      rw [pyRoundQ_of_half_lt h1, pyRoundQ_of_half_lt h2, heq]

/-- Core shape of a successful /closest_bars call: there is a sorted
permutation `s` of the scored rows such that, whenever the three smallest
distances are finite, the response is 200 with the first three entries of
`s` formatted and rounded. -/
theorem closestBars_shape
    (dist : PyFloat × PyFloat → PyFloat × PyFloat → PyFloat)
    (body : Body) (st : DataFrame) (lat lon : PyFloat)
    (hla : pyFloat body.lat = some lat) (hlo : pyFloat body.lon = some lon) :
    ∃ s : List (BarRow × PyFloat),
      s.Perm (st.rows.zip (st.rows.map fun r => dist (lat, lon) (r.latitude, r.longitude))) ∧
      List.Sorted leDist s ∧
      ((∀ p ∈ s.take 3, isFinB p.2 = true) →
        (closestBars dist body st).1
          = .ok ((s.take 3).map fun p =>
              rankedOf (closestBars dist body st).2 p.1 (pyRoundQ (forceQ p.2)))) := by
  refine ⟨List.insertionSort leDist _, List.perm_insertionSort _ _,
    List.sorted_insertionSort _ _, ?_⟩
  intro hfin
  simp only [closestBars, hla, hlo]
  rw [buildResults_eq _ _ hfin]

/-- C1: for every catalog and valid query point whose per-record distances
are all finite, /closest_bars answers 200 with exactly min(3, number of
records) entries: the first three entries of a distance-sorted permutation
of the scored records, ordered non-decreasing in the displayed
distance_m, and every returned record is at least as close as every
record left out. -/
theorem closestBars_returns_min3_sorted
    (dist : PyFloat × PyFloat → PyFloat × PyFloat → PyFloat)
    (body : Body) (st : DataFrame) (lat lon : PyFloat)
    (hla : pyFloat body.lat = some lat) (hlo : pyFloat body.lon = some lon)
    (hfin : ∀ r ∈ st.rows, isFinB (dist (lat, lon) (r.latitude, r.longitude)) = true) :
    ∃ (s : List (BarRow × PyFloat)) (bars : List RankedBar),
      s.Perm (st.rows.zip (st.rows.map fun r => dist (lat, lon) (r.latitude, r.longitude))) ∧
      List.Sorted leDist s ∧
      (closestBars dist body st).1 = .ok bars ∧
      bars = ((s.take 3).map fun p =>
        rankedOf (closestBars dist body st).2 p.1 (pyRoundQ (forceQ p.2))) ∧
      bars.length = min 3 st.rows.length ∧
      bars.Pairwise (fun a b => a.distance_m ≤ b.distance_m) ∧
      (∀ x ∈ s.take 3, ∀ y ∈ s.drop 3, pyLe x.2 y.2 = true) := by
  obtain ⟨s, hperm, hsort, hok⟩ := closestBars_shape dist body st lat lon hla hlo
  have hsfin : ∀ p ∈ s, isFinB p.2 = true := by
    intro p hp
    have hp2 := hperm.mem_iff.1 hp
    obtain ⟨h1, h2⟩ := mem_zip_map _ _ _ hp2
    rw [h1]
    exact hfin _ h2
  have htake : ∀ p ∈ s.take 3, isFinB p.2 = true := fun p hp =>
    hsfin p (List.mem_of_mem_take hp)
  have hp3 : (s.take 3).Pairwise leDist :=
    List.Pairwise.sublist (List.take_sublist 3 s) hsort
  refine ⟨s, _, hperm, hsort, hok htake, rfl, ?_, ?_, ?_⟩
  · rw [List.length_map, List.length_take, hperm.length_eq, List.length_zip,
      List.length_map, Nat.min_self]
  · rw [List.pairwise_map]
    refine hp3.imp_of_mem ?_
    intro a b ha hb hab
    obtain ⟨qa, hqa⟩ : ∃ qa, a.2 = PyFloat.fin qa := by
      have := htake a ha
      cases h : a.2 <;> simp [h, isFinB] at this ⊢
    obtain ⟨qb, hqb⟩ : ∃ qb, b.2 = PyFloat.fin qb := by
      have := htake b hb
      cases h : b.2 <;> simp [h, isFinB] at this ⊢
    have hle : qa ≤ qb := by
      rw [leDist, hqa, hqb, pyLe_fin_iff] at hab
      exact hab
    simpa [rankedOf, hqa, hqb, forceQ] using pyRoundQ_mono hle
  · intro x hx y hy
    exact hsort.rel_of_mem_take_of_mem_drop hx hy

/-- Concrete bar used by the witness theorems. -/
def wRowA : BarRow := ⟨"A", "1 rue", JVal.str "2", .fin 1, .fin 2, .str "17-19"⟩

/-- Concrete bar used by the witness theorems. -/
def wRowB : BarRow := ⟨"B", "2 rue", JVal.str "3", .fin 4, .fin 5, JVal.null⟩

/-- Concrete bar used by the witness theorems. -/
def wRowC : BarRow := ⟨"C", "3 rue", JVal.str "4", .fin 6, .fin 7, .str "18-20"⟩

/-- Concrete bar with latitude 9, treated as corrupt by `wDistBad`. -/
def wRowBad : BarRow := ⟨"X", "9 rue", JVal.str "5", .fin 9, .fin 9, .str "h"⟩

/-- Concrete valid request body used by the witness theorems. -/
def wBody : Body := ⟨some (.num (.fin 1)), some (.num (.fin 2))⟩

/-- Concrete distance function (constant 3 meters) used by witnesses. -/
def wDist3 : PyFloat × PyFloat → PyFloat × PyFloat → PyFloat := fun _ _ => .fin 3

/-- Concrete distance function that yields nan on the corrupt row
(latitude 9) and 1 meter elsewhere. -/
def wDistBad : PyFloat × PyFloat → PyFloat × PyFloat → PyFloat :=
  fun _ p => if p.1 = .fin 9 then .nan else .fin 1

/-- Concrete one-row catalog. -/
def wSt1 : DataFrame := ⟨true, [wRowA], none⟩

/-- Concrete two-row catalog. -/
def wSt2 : DataFrame := ⟨true, [wRowA, wRowB], none⟩

/-- Concrete four-row catalog whose last row is corrupt under
`wDistBad`. -/
def wStBad4 : DataFrame := ⟨true, [wRowA, wRowB, wRowC, wRowBad], none⟩

/-- Witness for C1 at a concrete two-row catalog and constant distance 3:
both hypotheses hold and the conclusion follows by the theorem. -/
theorem closestBars_returns_min3_sorted_witness :
    (pyFloat wBody.lat = some (.fin 1)) ∧
    (pyFloat wBody.lon = some (.fin 2)) ∧
    (∀ r ∈ wSt2.rows,
      isFinB (wDist3 (PyFloat.fin 1, PyFloat.fin 2) (r.latitude, r.longitude)) = true) ∧
    (∃ (s : List (BarRow × PyFloat)) (bars : List RankedBar),
      s.Perm (wSt2.rows.zip (wSt2.rows.map fun r =>
        wDist3 (PyFloat.fin 1, PyFloat.fin 2) (r.latitude, r.longitude))) ∧
      List.Sorted leDist s ∧
      (closestBars wDist3 wBody wSt2).1 = .ok bars ∧
      bars = ((s.take 3).map fun p =>
        rankedOf (closestBars wDist3 wBody wSt2).2 p.1 (pyRoundQ (forceQ p.2))) ∧
      bars.length = min 3 wSt2.rows.length ∧
      bars.Pairwise (fun a b => a.distance_m ≤ b.distance_m) ∧
      (∀ x ∈ s.take 3, ∀ y ∈ s.drop 3, pyLe x.2 y.2 = true)) := by
  refine ⟨by decide, by decide, by decide, ?_⟩
  exact closestBars_returns_min3_sorted wDist3 wBody wSt2 (.fin 1) (.fin 2)
    (by decide) (by decide) (by decide)

theorem map_snd_eq_fin_map :
    ∀ l : List (BarRow × PyFloat), (∀ p ∈ l, isFinB p.2 = true) →
      l.map Prod.snd = (l.map fun p => forceQ p.2).map PyFloat.fin := by
  intro l
  induction l with
  | nil => intro _; rfl
  | cons p t ih =>
    intro h
    have hp := h p (List.mem_cons_self _ _)
    have ht := ih fun q hq => h q (List.mem_cons_of_mem _ hq)
    cases hp2 : p.2 <;> rw [hp2] at hp <;> simp [isFinB] at hp
    simp [forceQ, hp2, ht]

/-- C7: ranking uses the full-precision distances and the rounding of
distance_meters happens only on the displayed output after sorting: on
any catalog with finite distances the raw distances of the returned
entries form a non-decreasing list qs, the displayed distances are
exactly the image of qs under rounding, and whenever two raw distances
differ by more than the rounding unit the returned relative order agrees
with the raw-distance order. -/
theorem closestBars_rounding_display_only
    (dist : PyFloat × PyFloat → PyFloat × PyFloat → PyFloat)
    (body : Body) (st : DataFrame) (lat lon : PyFloat)
    (hla : pyFloat body.lat = some lat) (hlo : pyFloat body.lon = some lon)
    (hfin : ∀ r ∈ st.rows, isFinB (dist (lat, lon) (r.latitude, r.longitude)) = true) :
    ∃ (s : List (BarRow × PyFloat)) (bars : List RankedBar) (qs : List ℚ),
      s.Perm (st.rows.zip (st.rows.map fun r => dist (lat, lon) (r.latitude, r.longitude))) ∧
      List.Sorted leDist s ∧
      (closestBars dist body st).1 = .ok bars ∧
      qs = (s.take 3).map (fun p => forceQ p.2) ∧
      (s.take 3).map Prod.snd = qs.map PyFloat.fin ∧
      List.Sorted (· ≤ ·) qs ∧
      bars.map (fun b => b.distance_m) = qs.map pyRoundQ ∧
      (∀ i j (hi : i < qs.length) (hj : j < qs.length),
        1 < |qs.get ⟨j, hj⟩ - qs.get ⟨i, hi⟩| →
          (i < j ↔ qs.get ⟨i, hi⟩ < qs.get ⟨j, hj⟩)) := by
  obtain ⟨s, hperm, hsort, hok⟩ := closestBars_shape dist body st lat lon hla hlo
  have hsfin : ∀ p ∈ s, isFinB p.2 = true := by
    intro p hp
    have hp2 := hperm.mem_iff.1 hp
    obtain ⟨h1, h2⟩ := mem_zip_map _ _ _ hp2
    rw [h1]
    exact hfin _ h2
  have htake : ∀ p ∈ s.take 3, isFinB p.2 = true := fun p hp =>
    hsfin p (List.mem_of_mem_take hp)
  have hp3 : (s.take 3).Pairwise leDist :=
    List.Pairwise.sublist (List.take_sublist 3 s) hsort
  have hsq : List.Sorted (· ≤ ·) ((s.take 3).map fun p => forceQ p.2) := by
    rw [List.Sorted, List.pairwise_map]
    refine hp3.imp_of_mem ?_
    intro a b ha hb hab
    obtain ⟨qa, hqa⟩ : ∃ qa, a.2 = PyFloat.fin qa := by
      have := htake a ha
      cases h : a.2 <;> simp [h, isFinB] at this ⊢
    obtain ⟨qb, hqb⟩ : ∃ qb, b.2 = PyFloat.fin qb := by
      have := htake b hb
      cases h : b.2 <;> simp [h, isFinB] at this ⊢
    rw [leDist, hqa, hqb, pyLe_fin_iff] at hab
    simpa [forceQ, hqa, hqb] using hab
  refine ⟨s, _, _, hperm, hsort, hok htake, rfl, map_snd_eq_fin_map _ htake, hsq, ?_, ?_⟩
  · rw [List.map_map, List.map_map]
    rfl
  · intro i j hi hj habs
    constructor
    · intro hij
      have hle := hsq.rel_get_of_lt (a := ⟨i, hi⟩) (b := ⟨j, hj⟩) (Fin.mk_lt_mk.2 hij)
      rcases eq_or_lt_of_le hle with he | hlt
      · rw [← he, sub_self, abs_zero] at habs
        exact absurd habs (by norm_num)
      · exact hlt
    · intro hq
      by_contra hnot
      push_neg at hnot
      rcases lt_or_eq_of_le hnot with hji | hji
      · have := hsq.rel_get_of_lt (a := ⟨j, hj⟩) (b := ⟨i, hi⟩) (Fin.mk_lt_mk.2 hji)
        exact absurd hq (not_lt.2 this)
      · subst hji
        exact lt_irrefl _ hq

/-- Witness for C7 at a concrete two-row catalog and constant distance 3. -/
theorem closestBars_rounding_display_only_witness :
    (pyFloat wBody.lat = some (.fin 1)) ∧
    (pyFloat wBody.lon = some (.fin 2)) ∧
    (∀ r ∈ wSt2.rows,
      isFinB (wDist3 (PyFloat.fin 1, PyFloat.fin 2) (r.latitude, r.longitude)) = true) ∧
    (∃ (s : List (BarRow × PyFloat)) (bars : List RankedBar) (qs : List ℚ),
      s.Perm (wSt2.rows.zip (wSt2.rows.map fun r =>
        wDist3 (PyFloat.fin 1, PyFloat.fin 2) (r.latitude, r.longitude))) ∧
      List.Sorted leDist s ∧
      (closestBars wDist3 wBody wSt2).1 = .ok bars ∧
      qs = (s.take 3).map (fun p => forceQ p.2) ∧
      (s.take 3).map Prod.snd = qs.map PyFloat.fin ∧
      List.Sorted (· ≤ ·) qs ∧
      bars.map (fun b => b.distance_m) = qs.map pyRoundQ ∧
      (∀ i j (hi : i < qs.length) (hj : j < qs.length),
        1 < |qs.get ⟨j, hj⟩ - qs.get ⟨i, hi⟩| →
          (i < j ↔ qs.get ⟨i, hi⟩ < qs.get ⟨j, hj⟩))) := by
  refine ⟨by decide, by decide, by decide, ?_⟩
  exact closestBars_rounding_display_only wDist3 wBody wSt2 (.fin 1) (.fin 2)
    (by decide) (by decide) (by decide)

/-- C6: on an empty catalog a valid query gets a 200 with an empty list,
not an error. -/
theorem closestBars_empty_catalog_ok
    (dist : PyFloat × PyFloat → PyFloat × PyFloat → PyFloat)
    (body : Body) (st : DataFrame) (lat lon : PyFloat)
    (hla : pyFloat body.lat = some lat) (hlo : pyFloat body.lon = some lon)
    (hempty : st.rows = []) :
    (closestBars dist body st).1 = .ok [] := by
  simp [closestBars, hla, hlo, hempty, buildResults]

/-- Witness for C6 at the empty catalog. -/
theorem closestBars_empty_catalog_ok_witness :
    (pyFloat wBody.lat = some (.fin 1)) ∧
    (pyFloat wBody.lon = some (.fin 2)) ∧
    ((DataFrame.mk true [] none).rows = []) ∧
    (closestBars wDist3 wBody (DataFrame.mk true [] none)).1 = .ok [] := by
  refine ⟨by decide, by decide, rfl, ?_⟩
  exact closestBars_empty_catalog_ok wDist3 wBody (DataFrame.mk true [] none)
    (.fin 1) (.fin 2) (by decide) (by decide) rfl

theorem closestBars_not_clientError_of_valid
    (dist : PyFloat × PyFloat → PyFloat × PyFloat → PyFloat)
    (body : Body) (st : DataFrame) (lat lon : PyFloat)
    (hla : pyFloat body.lat = some lat) (hlo : pyFloat body.lon = some lon)
    (m : String) : (closestBars dist body st).1 ≠ .clientError m := by
  simp only [closestBars, hla, hlo]
  split <;> simp

/-- C4 amended: /closest_bars answers 400 with the "Coordonnées
invalides" message exactly when float() raises on lat or lon, i.e. when a
field is absent, null, or not parseable; a value that parses to nan or an
infinity passes this validation. -/
theorem closestBars_clientError_iff
    (dist : PyFloat × PyFloat → PyFloat × PyFloat → PyFloat)
    (body : Body) (st : DataFrame) :
    (closestBars dist body st).1 = .clientError "Coordonnées invalides" ↔
      (pyFloat body.lat = none ∨ pyFloat body.lon = none) := by
  constructor
  · intro h
    by_contra hc
    push_neg at hc
    obtain ⟨lat, hla⟩ := Option.ne_none_iff_exists'.1 hc.1
    obtain ⟨lon, hlo⟩ := Option.ne_none_iff_exists'.1 hc.2
    exact closestBars_not_clientError_of_valid dist body st lat lon hla hlo _ h
  · intro h
    rcases h with h | h
    · cases h2 : pyFloat body.lon <;> simp [closestBars, h, h2]
    · cases h1 : pyFloat body.lat <;> simp [closestBars, h, h1]

/-- C4 counterexample: a lat field given as the string "nan" parses to a
non-finite float, passes the validation, and the request answers 200 with
a ranked list instead of the claimed 400 client error. -/
theorem closestBars_nonfinite_accepted_counterexample :
    (closestBars wDist3 ⟨some (.str "nan"), some (.num (.fin 2))⟩
      (DataFrame.mk true [] none)).1 = .ok [] ∧
    (closestBars wDist3 ⟨some (.str "nan"), some (.num (.fin 2))⟩
      (DataFrame.mk true [] none)).1 ≠ .clientError "Coordonnées invalides" := by
  decide

/-- C10: lat and lon supplied as numeric strings are accepted by the
float() validation and produce exactly the same response and state as the
corresponding numeric body; no 400 client error is raised. -/
theorem closestBars_accepts_numeric_strings
    (dist : PyFloat × PyFloat → PyFloat × PyFloat → PyFloat)
    (st : DataFrame) (s t : String) (x y : PyFloat)
    (hs : parsePyFloat s = some x) (ht : parsePyFloat t = some y) :
    closestBars dist ⟨some (.str s), some (.str t)⟩ st
      = closestBars dist ⟨some (.num x), some (.num y)⟩ st ∧
    ∀ m, (closestBars dist ⟨some (.str s), some (.str t)⟩ st).1 ≠ .clientError m := by
  have hps : pyFloat (some (.str s)) = some x := hs
  have hpt : pyFloat (some (.str t)) = some y := ht
  constructor
  · simp only [closestBars, pyFloat, hs, ht]
  · intro m
    exact closestBars_not_clientError_of_valid dist _ st x y hps hpt m

/-- Witness for C10 with the string body lat "48.85", lon "2.35". -/
theorem closestBars_accepts_numeric_strings_witness :
    (parsePyFloat "48.85" = some (.fin (Rat.divInt 977 20))) ∧
    (parsePyFloat "2.35" = some (.fin (Rat.divInt 47 20))) ∧
    ((closestBars wDist3 ⟨some (.str "48.85"), some (.str "2.35")⟩ wSt1
      = closestBars wDist3
          ⟨some (.num (.fin (Rat.divInt 977 20))), some (.num (.fin (Rat.divInt 47 20)))⟩ wSt1) ∧
     ∀ m, (closestBars wDist3 ⟨some (.str "48.85"), some (.str "2.35")⟩ wSt1).1
        ≠ .clientError m) := by
  refine ⟨by decide, by decide, ?_⟩
  exact closestBars_accepts_numeric_strings wDist3 wSt1 "48.85" "2.35" _ _
    (by decide) (by decide)

/-- C8: an unreadable dataset source never raises out of the load; it
produces the empty fallback frame with the fixed schema, and /all_bars on
that state answers 200 with an empty bar list. -/
theorem loadBars_failure_empty_allBars_ok (e : String) :
    loadBars (.error e) = ⟨true, [], none⟩ ∧
    allBars (loadBars (.error e)) = .ok [] :=
  ⟨rfl, rfl⟩

theorem buildResults_happy_hour (st : DataFrame) (h : st.hasHappyHour = false) :
    ∀ (l : List (BarRow × PyFloat)) (bars : List RankedBar),
      buildResults st l = some bars → ∀ b ∈ bars, b.happy_hour = .str "Non renseigné" := by
  intro l
  induction l with
  | nil =>
    intro bars hb b hbmem
    simp only [buildResults, Option.some.injEq] at hb
    rw [← hb] at hbmem
    cases hbmem
  | cons p t ih =>
    intro bars hb b hbmem
    obtain ⟨r, d⟩ := p
    simp only [buildResults] at hb
    cases hd : pyRound d <;> rw [hd] at hb
    · exact absurd hb (by simp)
    · cases hrec : buildResults st t <;> rw [hrec] at hb
      · exact absurd hb (by simp)
      · simp only [Option.some.injEq] at hb
        rw [← hb] at hbmem
        rcases List.mem_cons.1 hbmem with h1 | h1
        · rw [h1]
          simp [rankedOf, rowGetHappyHour, h]
        · exact ih _ hrec b h1

/-- C9 amended: the "Non renseigné" sentinel appears in /all_bars and
/closest_bars output exactly in the case that the happy-hour column is
absent from the loaded frame; a blank cell inside a present column is
instead passed through unmodified (as the float nan the reader produces),
which the counterexample exhibits. -/
theorem happyHour_sentinel_when_column_absent (st : DataFrame)
    (h : st.hasHappyHour = false) :
    (allBars st = .ok (st.rows.map fun r =>
      ⟨r.nom, r.adresse, r.prix, r.latitude, r.longitude, .str "Non renseigné"⟩)) ∧
    (∀ dist body bars st2, closestBars dist body st = (.ok bars, st2) →
      ∀ b ∈ bars, b.happy_hour = .str "Non renseigné") := by
  constructor
  · simp [allBars, barInfoOf, rowGetHappyHour, h]
  · intro dist body bars st2 hc b hb
    cases h1 : pyFloat body.lat <;> cases h2 : pyFloat body.lon <;>
      simp only [closestBars, h1, h2] at hc
    · exact absurd hc (by simp)
    · exact absurd hc (by simp)
    · exact absurd hc (by simp)
    · split at hc
      · rename_i bs hbr
        simp only [Prod.mk.injEq, HttpResp.ok.injEq] at hc
        rw [← hc.1] at hb
        refine buildResults_happy_hour _ ?_ _ _ hbr b hb
        exact h
      · exact absurd hc (by simp)

/-- Concrete bar whose happy-hour cell is blank: pandas reads such a cell
as the float nan even though the column exists. -/
def wRowBlank : BarRow := ⟨"D", "4 rue", JVal.str "2", .fin 1, .fin 2, JVal.num .nan⟩

/-- Concrete catalog whose frame lacks the happy-hour column. -/
def wStNoHH : DataFrame := ⟨false, [wRowA], none⟩

/-- Witness for C9 (amended) on a catalog without the happy-hour
column. -/
theorem happyHour_sentinel_when_column_absent_witness :
    (wStNoHH.hasHappyHour = false) ∧
    ((allBars wStNoHH = .ok (wStNoHH.rows.map fun r =>
      ⟨r.nom, r.adresse, r.prix, r.latitude, r.longitude, .str "Non renseigné"⟩)) ∧
    (∀ dist body bars st2, closestBars dist body wStNoHH = (.ok bars, st2) →
      ∀ b ∈ bars, b.happy_hour = .str "Non renseigné")) := by
  refine ⟨by decide, ?_⟩
  exact happyHour_sentinel_when_column_absent wStNoHH (by decide)

/-- C9 counterexample: a record whose happy-hour cell is blank while the
column exists is rendered with the nan value, not with the "Non
renseigné" sentinel, in the /all_bars output. -/
theorem happyHour_blank_passthrough_counterexample :
    allBars (DataFrame.mk true [wRowBlank] none)
      = .ok [⟨"D", "4 rue", JVal.str "2", .fin 1, .fin 2, JVal.num .nan⟩] ∧
    (JVal.num PyFloat.nan ≠ JVal.str "Non renseigné") := by
  decide

/-- C3 counterexample: a single valid /closest_bars call mutates the
shared dataframe: it stores the computed distance column into the process
state, so the catalog object after the call differs from the loaded
one. -/
theorem closestBars_distCol_mutation_counterexample :
    (closestBars wDist3 wBody wSt1).2 ≠ wSt1 := by
  decide

/-- C3 amended: /closest_bars does write the distance column into the
shared frame (so the state is mutated), but it never changes the loaded
records or the column layout, no endpoint reads the stored distance
column, and hence every /closest_bars and /all_bars answer is independent
of which queries ran before. -/
theorem closestBars_rows_immutable_responses_independent
    (dist : PyFloat × PyFloat → PyFloat × PyFloat → PyFloat)
    (body : Body) (st : DataFrame) (c : Option (List PyFloat)) :
    ((closestBars dist body st).2.rows = st.rows) ∧
    ((closestBars dist body st).2.hasHappyHour = st.hasHappyHour) ∧
    ((closestBars dist body { st with distCol := c }).1 = (closestBars dist body st).1) ∧
    (allBars (closestBars dist body st).2 = allBars st) := by
  obtain ⟨hh, rows, dc⟩ := st
  refine ⟨?_, ?_, ?_, ?_⟩ <;>
    cases h1 : pyFloat body.lat <;> cases h2 : pyFloat body.lon <;>
      simp only [closestBars, h1, h2] <;>
      try rfl
  all_goals split <;> rfl

theorem sorted_take_fin :
    ∀ (l : List (BarRow × PyFloat)) (k : Nat),
      l.Pairwise leDist →
      (∀ p ∈ l, isFinB p.2 = true ∨ p.2 = .nan) →
      k ≤ l.countP (fun p => isFinB p.2) →
      ∀ p ∈ l.take k, isFinB p.2 = true := by
  intro l
  induction l with
  | nil =>
    intro k _ _ _ p hp
    simp at hp
  | cons a t ih =>
    intro k hpw hmix hk p hp
    cases hfa : isFinB a.2 with
    | true =>
      cases k with
      | zero => simp at hp
      | succ k2 =>
        rw [List.take_succ_cons] at hp
        rcases List.mem_cons.1 hp with h | h
        · rw [h]
          exact hfa
        · refine ih k2 (List.Pairwise.of_cons hpw)
            (fun q hq => hmix q (List.mem_cons_of_mem _ hq)) ?_ p h
          rw [List.countP_cons_of_pos _ _ (by simpa using hfa)] at hk
          omega
    | false =>
      have ha : a.2 = .nan := by
        rcases hmix a (List.mem_cons_self _ _) with h | h
        · rw [hfa] at h
          cases h
        · exact h
      have hall : ∀ b ∈ t, ¬(isFinB b.2 = true) := by
        intro b hb
        have hler : leDist a b := (List.pairwise_cons.1 hpw).1 b hb
        rw [leDist, ha, pyLe_nan_iff] at hler
        rw [hler]
        simp [isFinB]
      have hz : t.countP (fun p => isFinB p.2) = 0 :=
        List.countP_eq_zero.2 (fun b hb => by simpa using hall b hb)
      rw [List.countP_cons_of_neg _ _ (by simp [hfa]), hz] at hk
      have : k = 0 := Nat.le_zero.1 hk
      rw [this] at hp
      simp at hp

/-- C5 amended: a record whose distance computation yields nan sorts
after every finite distance; whenever at least three records score a
finite distance the request succeeds with exactly three finite-distance
entries and every nan record is excluded.  (With fewer than three finite
distances the nan row reaches round(), the exception handler fires, and
the whole request fails with a 500 instead of skipping the record, as the
counterexample shows.) -/
theorem closestBars_nan_excluded_when_three_finite
    (dist : PyFloat × PyFloat → PyFloat × PyFloat → PyFloat)
    (body : Body) (st : DataFrame) (lat lon : PyFloat)
    (hla : pyFloat body.lat = some lat) (hlo : pyFloat body.lon = some lon)
    (hmix : ∀ r ∈ st.rows,
      isFinB (dist (lat, lon) (r.latitude, r.longitude)) = true ∨
      dist (lat, lon) (r.latitude, r.longitude) = .nan)
    (hcount : 3 ≤ (st.rows.map fun r =>
      dist (lat, lon) (r.latitude, r.longitude)).countP isFinB) :
    ∃ (s : List (BarRow × PyFloat)) (bars : List RankedBar),
      s.Perm (st.rows.zip (st.rows.map fun r => dist (lat, lon) (r.latitude, r.longitude))) ∧
      List.Sorted leDist s ∧
      (closestBars dist body st).1 = .ok bars ∧
      bars.length = 3 ∧
      (∀ p ∈ s.take 3, isFinB p.2 = true) := by
  obtain ⟨s, hperm, hsort, hok⟩ := closestBars_shape dist body st lat lon hla hlo
  have hcount2 : 3 ≤ s.countP (fun p => isFinB p.2) := by
    rw [List.Perm.countP_eq _ hperm]
    have hm := map_snd_zip_map (fun r => dist (lat, lon) (r.latitude, r.longitude)) st.rows
    rw [← hm, List.countP_map] at hcount
    exact hcount
  have hmix2 : ∀ p ∈ s, isFinB p.2 = true ∨ p.2 = .nan := by
    intro p hp
    obtain ⟨h1, h2⟩ := mem_zip_map _ _ _ (hperm.mem_iff.1 hp)
    rw [h1]
    exact hmix _ h2
  have htake := sorted_take_fin s 3 hsort hmix2 hcount2
  refine ⟨s, _, hperm, hsort, hok htake, ?_, htake⟩
  rw [List.length_map, List.length_take]
  have hle : 3 ≤ s.length := le_trans hcount2 (List.countP_le_length _)
  omega

/-- Concrete two-row catalog whose second row is corrupt under
`wDistBad`. -/
def wStBad2 : DataFrame := ⟨true, [wRowA, wRowBad], none⟩

/-- Witness for C5 (amended) on a four-row catalog with three finite
distances and one nan. -/
theorem closestBars_nan_excluded_when_three_finite_witness :
    (pyFloat wBody.lat = some (.fin 1)) ∧
    (pyFloat wBody.lon = some (.fin 2)) ∧
    (∀ r ∈ wStBad4.rows,
      isFinB (wDistBad (PyFloat.fin 1, PyFloat.fin 2) (r.latitude, r.longitude)) = true ∨
      wDistBad (PyFloat.fin 1, PyFloat.fin 2) (r.latitude, r.longitude) = .nan) ∧
    (3 ≤ (wStBad4.rows.map fun r =>
      wDistBad (PyFloat.fin 1, PyFloat.fin 2) (r.latitude, r.longitude)).countP isFinB) ∧
    (∃ (s : List (BarRow × PyFloat)) (bars : List RankedBar),
      s.Perm (wStBad4.rows.zip (wStBad4.rows.map fun r =>
        wDistBad (PyFloat.fin 1, PyFloat.fin 2) (r.latitude, r.longitude))) ∧
      List.Sorted leDist s ∧
      (closestBars wDistBad wBody wStBad4).1 = .ok bars ∧
      bars.length = 3 ∧
      (∀ p ∈ s.take 3, isFinB p.2 = true)) := by
  refine ⟨by decide, by decide, by decide, by decide, ?_⟩
  exact closestBars_nan_excluded_when_three_finite wDistBad wBody wStBad4
    (.fin 1) (.fin 2) (by decide) (by decide) (by decide) (by decide)

/-- C5 counterexample: on a catalog with one good record and one record
whose distance is nan, the nan distance reaches round(), the catch-all
handler fires, and the whole request answers 500: the good record is not
returned, contradicting the claim that the query still succeeds with the
bad record merely excluded. -/
theorem closestBars_bad_row_500_counterexample :
    (closestBars wDistBad wBody wStBad2).1 = .serverError := by
  decide
